import Mathlib

/-!
Verification of the pgbouncer-quota-enforcer core: SQL normalization and
fingerprinting, PostgreSQL wire-message parsing, the per-connection message
loop, server shutdown, the structured logger and the query logger.

Go strings are modelled as Lean `String` (a list of characters; the sources
only manipulate ASCII text, where Go's byte indexing and character indexing
agree). Go `error` results are modelled with `Except`/`Option`.
-/

namespace PgQuota

/-! ### Go string helpers (strings.TrimSpace, strings.ReplaceAll) -/

/-- Go `unicode.IsSpace` on the code points relevant here: space, tab,
newline, vertical tab, form feed, carriage return, NEL, NBSP. -/
def goIsSpace (c : Char) : Bool :=
  c.toNat = 32 || c.toNat = 9 || c.toNat = 10 || c.toNat = 11 ||
  c.toNat = 12 || c.toNat = 13 || c.toNat = 0x85 || c.toNat = 0xA0

/-- Drop the longest suffix of `l` whose characters satisfy `p`. -/
def dropTrail (p : Char → Bool) (l : List Char) : List Char :=
  (l.reverse.dropWhile p).reverse

/-- Go `strings.TrimSpace` on a character list. -/
def goTrimSpaceL (l : List Char) : List Char :=
  dropTrail goIsSpace (l.dropWhile goIsSpace)

/-- Go `strings.TrimSpace`. -/
def goTrimSpace (s : String) : String :=
  ⟨goTrimSpaceL s.data⟩

/-- Go `strings.ReplaceAll s "\n" " "` (a single-character pattern, so it is
a character map). -/
def goReplaceNl (s : String) : String :=
  ⟨s.data.map (fun c => if c = '\n' then ' ' else c)⟩

/-! ### A token model of SQL text

`pg_query_go` (PostgreSQL's own parser) is an external library whose code is
not part of this repository; the definitions below model its
normalization/fingerprinting contract from the specification at the level of
lexical tokens: literals (numbers, quoted strings, boolean/NULL keywords)
versus everything else. -/

/-- One lexical token of a SQL text. `ph n` is the placeholder `$n`, produced
only by normalization. -/
inductive Tok where
  | word (s : String)
  | num (s : String)
  | strLit (s : String)
  | sym (c : Char)
  | ph (n : Nat)
  deriving DecidableEq

/-- The single-quote character. -/
def sq : Char := Char.ofNat 39

def isDigitC (c : Char) : Bool := 48 ≤ c.toNat && c.toNat ≤ 57

def isAlphaC (c : Char) : Bool :=
  (97 ≤ c.toNat && c.toNat ≤ 122) || (65 ≤ c.toNat && c.toNat ≤ 90)

def isWordChar (c : Char) : Bool := isAlphaC c || isDigitC c || c = '_'

def isNumChar (c : Char) : Bool := isDigitC c || c = '.'

/-- Scan the body of a single-quoted SQL string literal (the opening quote
already consumed), honouring the doubled-quote escape. Returns the literal
body and the remaining input, or `none` when the literal is unterminated. -/
def scanStrLit : List Char → Option (List Char × List Char)
  | [] => none
  | [c] => if c = sq then some ([], []) else none
  | c :: c2 :: rest2 =>
    if c = sq then
      if c2 = sq then
        match scanStrLit rest2 with
        | some (s, r) => some (c :: s, r)
        | none => none
      else some ([], c2 :: rest2)
    else
      match scanStrLit (c2 :: rest2) with
      | some (s, r) => some (c :: s, r)
      | none => none

/-- Fuel-driven lexer loop; the fuel is an upper bound on the characters left,
and every step consumes at least one character. -/
def lexLoop : Nat → List Char → Option (List Tok)
  | _, [] => some []
  | 0, _ :: _ => none
  | Nat.succ fuel, c :: cs =>
    if goIsSpace c then lexLoop fuel cs
    else if isAlphaC c || c = '_' then
      match lexLoop fuel ((c :: cs).dropWhile isWordChar) with
      | some ts => some (Tok.word ⟨(c :: cs).takeWhile isWordChar⟩ :: ts)
      | none => none
    else if isDigitC c then
      match lexLoop fuel ((c :: cs).dropWhile isNumChar) with
      | some ts => some (Tok.num ⟨(c :: cs).takeWhile isNumChar⟩ :: ts)
      | none => none
    else if c = sq then
      match scanStrLit cs with
      | some (s, r) =>
        match lexLoop fuel r with
        | some ts => some (Tok.strLit ⟨s⟩ :: ts)
        | none => none
      | none => none
    else
      match lexLoop fuel cs with
      | some ts => some (Tok.sym c :: ts)
      | none => none

/-- Modelled from the spec: the lexical phase of `pg_query_go`'s parser
(external library, absent from src/): split a SQL text into words, numeric
literals, quoted string literals and punctuation; fail on an unterminated
string literal. -/
def lex (s : String) : Option (List Tok) :=
  lexLoop s.data.length s.data

/-- The code point of `c`, lower-cased when `c` is an ASCII capital. -/
def lowerNat (c : Char) : Nat :=
  if 65 ≤ c.toNat && c.toNat ≤ 90 then c.toNat + 32 else c.toNat

/-- Case-insensitive test for the keyword constants TRUE, FALSE and NULL. -/
def isConstWord (s : String) : Bool :=
  s.data.map lowerNat = [116, 114, 117, 101] ||
  s.data.map lowerNat = [102, 97, 108, 115, 101] ||
  s.data.map lowerNat = [110, 117, 108, 108]

/-- A token is a literal when it is a number, a quoted string, or one of the
keyword constants TRUE/FALSE/NULL. -/
def Tok.isLit : Tok → Bool
  | .num _ => true
  | .strLit _ => true
  | .word s => isConstWord s
  | _ => false

/-- Replace each literal token, left to right, with `$n`, `$(n+1)`, …. -/
def renumberFrom : Nat → List Tok → List Tok
  | _, [] => []
  | n, t :: ts =>
    if t.isLit then Tok.ph n :: renumberFrom (n + 1) ts
    else t :: renumberFrom n ts

/-- Erase literal payloads, keeping only the structural shape. -/
def eraseLits (ts : List Tok) : List Tok :=
  ts.map (fun t => if t.isLit then Tok.ph 0 else t)

/-- Text of one token. -/
def tokText : Tok → String
  | .word s => s
  | .num s => s
  | .strLit s => ⟨sq :: s.data ++ [sq]⟩
  | .sym c => ⟨[c]⟩
  | .ph n => "$" ++ toString n

/-- No space is printed before a comma or a closing parenthesis. -/
def noSpaceBefore : Tok → Bool
  | .sym c => c = ',' || c = ')'
  | _ => false

/-- No space is printed after an opening parenthesis. -/
def noSpaceAfter : Tok → Bool
  | .sym c => c = '('
  | _ => false

/-- Render a token list back to canonical text. -/
def render : List Tok → String
  | [] => ""
  | [t] => tokText t
  | t1 :: t2 :: ts =>
    tokText t1 ++ (if noSpaceAfter t1 || noSpaceBefore t2 then "" else " ")
      ++ render (t2 :: ts)

/-- Modelled from the spec: `pg_query.Normalize` (external library, absent
from src/): replace each literal, in left-to-right order, with `$N` starting
at 1, preserving all other tokens; fail when the text does not lex. -/
def pgNormalize (s : String) : Option String :=
  (lex s).map (fun ts => render (renumberFrom 1 ts))

/-- Modelled from the spec: `pg_query.Fingerprint` (external library, absent
from src/): a deterministic digest of the query's structural shape, modelled
as the rendered shape itself (an idealised collision-free digest). -/
def pgFingerprint (s : String) : Option String :=
  (lex s).map (fun ts => render (eraseLits ts))

/-! ### Domain model (internal/app/domain) -/

/-- domain.QueryHash. -/
structure QueryHash where
  value : String
  deriving DecidableEq

/-- domain.NewQueryHash. -/
def NewQueryHash (hash : String) : QueryHash := ⟨hash⟩

/-- domain.NormalizedQuery. -/
structure NormalizedQuery where
  Original : String
  Normalized : String
  Hash : QueryHash
  deriving DecidableEq

/-- The distinct error results of `PgQueryNormalizer.Normalize`: the two
empty-input checks return the "empty query cannot be normalized" error, the
two library calls wrap the library's failure. -/
inductive NormError where
  | emptyQuery
  | normalizeFailed
  | fingerprintFailed
  deriving DecidableEq

/-- `PgQueryNormalizer.Normalize` (src/unnamed/part_004 lines 166-193):
reject empty and whitespace-only input, then normalize and fingerprint via
pg_query. -/
def Normalize (rawQuery : String) : Except NormError NormalizedQuery :=
  if rawQuery = "" then .error .emptyQuery
  else if goTrimSpace rawQuery = "" then .error .emptyQuery
  else
    match pgNormalize rawQuery with
    | none => .error .normalizeFailed
    | some normalized =>
      match pgFingerprint rawQuery with
      | none => .error .fingerprintFailed
      | some fingerprint =>
        .ok { Original := rawQuery, Normalized := normalized,
              Hash := NewQueryHash fingerprint }

/-! ### PostgreSQL wire messages and the message decoder

The byte-level frame decoding is done by the external `pgproto3` library
(absent from src/); `decodeBody` below models it from the specification's
§4.3 frame grammar. Bytes are `Nat` values below 256. -/

/-- A decoded regular-phase frontend message. -/
inductive WireMsg where
  | query (sql : List Nat)
  | parseStmt (name sql : List Nat) (paramOids : List Nat)
  | bind (portal stmt : List Nat) (formatCodes : List Nat)
      (params : List (Option (List Nat))) (resultCodes : List Nat)
  | exec (portal : List Nat) (maxRows : Nat)
  | describe (objType : Nat) (name : List Nat)
  | close (objType : Nat) (name : List Nat)
  | sync
  | terminate
  | flush
  | password (pw : List Nat)
  | unknown (tag : Nat) (payload : List Nat)
  deriving DecidableEq

/-- Read a null-terminated byte string: the bytes before the null and the
rest after it; fail when no null byte occurs. -/
def readCString : List Nat → Option (List Nat × List Nat)
  | [] => none
  | b :: rest =>
    if b = 0 then some ([], rest)
    else
      match readCString rest with
      | some (s, r) => some (b :: s, r)
      | none => none

/-- Read a big-endian 16-bit integer. -/
def readInt16 : List Nat → Option (Nat × List Nat)
  | b1 :: b2 :: rest => some (b1 * 256 + b2, rest)
  | _ => none

/-- Read a big-endian 32-bit integer. -/
def readInt32 : List Nat → Option (Nat × List Nat)
  | b1 :: b2 :: b3 :: b4 :: rest =>
    some (((b1 * 256 + b2) * 256 + b3) * 256 + b4, rest)
  | _ => none

/-- Take exactly `n` bytes. -/
def readBytesN : Nat → List Nat → Option (List Nat × List Nat)
  | 0, l => some ([], l)
  | _ + 1, [] => none
  | n + 1, b :: rest =>
    match readBytesN n rest with
    | some (s, r) => some (b :: s, r)
    | none => none

/-- Read `n` big-endian 16-bit integers. -/
def readInts16 : Nat → List Nat → Option (List Nat × List Nat)
  | 0, l => some ([], l)
  | n + 1, l =>
    match readInt16 l with
    | some (v, r) =>
      match readInts16 n r with
      | some (vs, r2) => some (v :: vs, r2)
      | none => none
    | none => none

/-- Read `n` big-endian 32-bit integers. -/
def readInts32 : Nat → List Nat → Option (List Nat × List Nat)
  | 0, l => some ([], l)
  | n + 1, l =>
    match readInt32 l with
    | some (v, r) =>
      match readInts32 n r with
      | some (vs, r2) => some (v :: vs, r2)
      | none => none
    | none => none

/-- Read `n` Bind parameter values, each an int32 length (0xFFFFFFFF encodes
SQL NULL) followed by that many bytes. -/
def readParams : Nat → List Nat → Option (List (Option (List Nat)) × List Nat)
  | 0, l => some ([], l)
  | n + 1, l =>
    match readInt32 l with
    | some (len, r) =>
      if len = 0xFFFFFFFF then
        match readParams n r with
        | some (vs, r2) => some (none :: vs, r2)
        | none => none
      else
        match readBytesN len r with
        | some (v, r2) =>
          match readParams n r2 with
          | some (vs, r3) => some (some v :: vs, r3)
          | none => none
        | none => none
    | none => none

/-- Modelled from the spec: regular-phase frame body decoding (done in the
external `pgproto3` library, absent from src/), per §4.3: the tag selects the
payload grammar; a known tag whose payload does not match its grammar (or
leaves bytes unconsumed, violating the declared-length invariant) is a decode
error; an unknown tag is passed through opaquely and never fails. -/
def decodeBody (tag : Nat) (payload : List Nat) : Except String WireMsg :=
  if tag = 81 then -- 'Q' Query: null-terminated SQL string
    match readCString payload with
    | some (sql, []) => .ok (.query sql)
    | _ => .error "malformed Query"
  else if tag = 80 then -- 'P' Parse
    match readCString payload with
    | some (name, r1) =>
      match readCString r1 with
      | some (sql, r2) =>
        match readInt16 r2 with
        | some (n, r3) =>
          match readInts32 n r3 with
          | some (oids, []) => .ok (.parseStmt name sql oids)
          | _ => .error "malformed Parse"
        | none => .error "malformed Parse"
      | none => .error "malformed Parse"
    | none => .error "malformed Parse"
  else if tag = 66 then -- 'B' Bind
    match readCString payload with
    | some (portal, r1) =>
      match readCString r1 with
      | some (stmt, r2) =>
        match readInt16 r2 with
        | some (nf, r3) =>
          match readInts16 nf r3 with
          | some (fmts, r4) =>
            match readInt16 r4 with
            | some (np, r5) =>
              match readParams np r5 with
              | some (params, r6) =>
                match readInt16 r6 with
                | some (nr, r7) =>
                  match readInts16 nr r7 with
                  | some (rfmts, []) => .ok (.bind portal stmt fmts params rfmts)
                  | _ => .error "malformed Bind"
                | none => .error "malformed Bind"
              | none => .error "malformed Bind"
            | none => .error "malformed Bind"
          | none => .error "malformed Bind"
        | none => .error "malformed Bind"
      | none => .error "malformed Bind"
    | none => .error "malformed Bind"
  else if tag = 69 then -- 'E' Execute
    match readCString payload with
    | some (portal, r1) =>
      match readInt32 r1 with
      | some (maxRows, []) => .ok (.exec portal maxRows)
      | _ => .error "malformed Execute"
    | none => .error "malformed Execute"
  else if tag = 68 then -- 'D' Describe
    match payload with
    | ot :: r1 =>
      if ot = 83 ∨ ot = 80 then
        match readCString r1 with
        | some (name, []) => .ok (.describe ot name)
        | _ => .error "malformed Describe"
      else .error "malformed Describe"
    | [] => .error "malformed Describe"
  else if tag = 67 then -- 'C' Close
    match payload with
    | ot :: r1 =>
      if ot = 83 ∨ ot = 80 then
        match readCString r1 with
        | some (name, []) => .ok (.close ot name)
        | _ => .error "malformed Close"
      else .error "malformed Close"
    | [] => .error "malformed Close"
  else if tag = 83 then -- 'S' Sync: empty payload
    match payload with
    | [] => .ok .sync
    | _ => .error "malformed Sync"
  else if tag = 88 then -- 'X' Terminate: empty payload
    match payload with
    | [] => .ok .terminate
    | _ => .error "malformed Terminate"
  else if tag = 72 then -- 'H' Flush: empty payload
    match payload with
    | [] => .ok .flush
    | _ => .error "malformed Flush"
  else if tag = 112 then -- 'p' PasswordMessage: remaining bytes, opaque
    .ok (.password payload)
  else
    .ok (.unknown tag payload)

/-- The frontend tags the decoder knows. -/
def knownTags : List Nat := [81, 80, 66, 69, 68, 67, 83, 88, 72, 112]

/-- Decode a byte list as ASCII text. -/
def bytesToString (l : List Nat) : String :=
  ⟨l.map Char.ofNat⟩

/-- A value stored in a ParsedMessage's Details map. -/
inductive DVal where
  | nat (n : Nat)
  | str (s : String)
  | bytes (l : List Nat)
  | params (l : List (Option (List Nat)))
  deriving DecidableEq

/-- `adapters.ParsedMessage` (src/unnamed/part_004 lines 23-28). -/
structure ParsedMessage where
  msgType : String
  msgQuery : String := ""
  details : List (String × DVal)
  deriving DecidableEq

/-- `PostgreSQLParser.parseMessage` (src/unnamed/part_004 lines 41-146):
convert a decoded wire message to a ParsedMessage; never fails, and for a
password message only the credential's length is recorded. -/
def parseMessage : WireMsg → ParsedMessage
  | .query sql =>
    { msgType := "Query", msgQuery := bytesToString sql,
      details := [("sql", .str (bytesToString sql))] }
  | .parseStmt name sql oids =>
    { msgType := "Parse", msgQuery := bytesToString sql,
      details := [("name", .str (bytesToString name)),
                  ("query", .str (bytesToString sql)),
                  ("parameter_oids", .bytes oids)] }
  | .password pw =>
    { msgType := "PasswordMessage",
      details := [("password_length", .nat pw.length)] }
  | .bind portal stmt _ params _ =>
    { msgType := "Bind",
      details := [("destination_portal", .str (bytesToString portal)),
                  ("prepared_statement", .str (bytesToString stmt)),
                  ("parameter_count", .nat params.length)] }
  | .exec portal maxRows =>
    { msgType := "Execute",
      details := [("portal", .str (bytesToString portal)),
                  ("max_rows", .nat maxRows)] }
  | .describe ot name =>
    { msgType := "Describe",
      details := [("object_type", .str (bytesToString [ot])),
                  ("name", .str (bytesToString name))] }
  | .sync => { msgType := "Sync", details := [] }
  | .terminate => { msgType := "Terminate", details := [] }
  | .flush => { msgType := "Flush", details := [] }
  | .close ot name =>
    { msgType := "Close",
      details := [("object_type", .str (bytesToString [ot])),
                  ("name", .str (bytesToString name))] }
  | .unknown tag payload =>
    { msgType := "Unknown",
      details := [("tag", .nat tag), ("message", .bytes payload)] }

/-- `PostgreSQLParser.ReadMessage` (src/unnamed/part_004 lines 31-38) on one
well-framed message: receive (frame decode) then parseMessage. -/
def ReadMessage (tag : Nat) (payload : List Nat) : Except String ParsedMessage :=
  (decodeBody tag payload).map parseMessage

/-! ### The connection handler's per-message processing and read loop
(internal/infra/adapters/postgres_connection_handler.go) -/

/-- The sink consumed by processMessage (domain.QueryLogger): each method may
return an error. -/
structure QuerySink where
  logQueryF : String → String → Except String Unit
  logNormalizedF : String → NormalizedQuery → Except String Unit
  logProtocolF : String → String → List (String × DVal) → Except String Unit

/-- One observable invocation made while processing a message. -/
inductive Call where
  | logQuery (conn q : String)
  | normalize (q : String)
  | logNormalized (conn : String) (nq : NormalizedQuery)
  | logProtocol (conn msgType : String)
  deriving DecidableEq

/-- `PostgreSQLConnectionHandler.processMessage` (lines 98-125): for Query and
Parse messages with non-empty SQL, log the raw query (an error is only
logged), normalize it (an error is only logged), and on success log the
normalized query (an error is only logged), returning nil; for every other
message type, return the sink's LogProtocolMessage result. The second
component records the calls made. -/
def processMessage (qs : QuerySink)
    (norm : String → Except NormError NormalizedQuery)
    (connectionID : String) (message : ParsedMessage) :
    Except String Unit × List Call :=
  if message.msgType = "Query" ∨ message.msgType = "Parse" then
    if message.msgQuery ≠ "" then
      match norm message.msgQuery with
      | .error _ =>
        (.ok (), [Call.logQuery connectionID message.msgQuery,
                  Call.normalize message.msgQuery])
      | .ok nq =>
        (.ok (), [Call.logQuery connectionID message.msgQuery,
                  Call.normalize message.msgQuery,
                  Call.logNormalized connectionID nq])
    else (.ok (), [])
  else
    (qs.logProtocolF connectionID message.msgType message.details,
     [Call.logProtocol connectionID message.msgType])

/-- One outcome of an iteration's context check plus read attempt in
HandleConnection's loop. -/
inductive ReadEvent where
  | cancelled
  | msg (m : ParsedMessage)
  | eofEv
  | timeoutEv
  | readErr (e : String)

/-- Why (or whether) the session's read loop ended. -/
inductive SessionEnd where
  | ctxCancelled
  | clientClosed
  | transportErr (e : String)
  | streamPending
  deriving DecidableEq

/-- `PostgreSQLConnectionHandler.HandleConnection`'s read loop (lines
57-94), driven by the sequence of read outcomes: context cancellation, EOF
and read errors end the session; a timeout re-checks cancellation and
continues; a decoded message is processed — a processing error is logged and
the loop continues. Returns how the loop ended and the calls made. -/
def handleLoop (qs : QuerySink)
    (norm : String → Except NormError NormalizedQuery)
    (connectionID : String) : List ReadEvent → SessionEnd × List Call
  | [] => (.streamPending, [])
  | .cancelled :: _ => (.ctxCancelled, [])
  | .eofEv :: _ => (.clientClosed, [])
  | .readErr e :: _ => (.transportErr e, [])
  | .timeoutEv :: rest => handleLoop qs norm connectionID rest
  | .msg m :: rest =>
    let pr := processMessage qs norm connectionID m
    let r := handleLoop qs norm connectionID rest
    (r.1, pr.2 ++ r.2)

/-- How a session ends as a function of the read outcomes alone. -/
def sessionEndOf : List ReadEvent → SessionEnd
  | [] => .streamPending
  | .cancelled :: _ => .ctxCancelled
  | .eofEv :: _ => .clientClosed
  | .readErr e :: _ => .transportErr e
  | .timeoutEv :: rest => sessionEndOf rest
  | .msg _ :: rest => sessionEndOf rest

/-! ### Server shutdown (internal/infra/adapters/tcp_server.go) -/

/-- The observable state of a StandardTCPServer: the running flag, whether a
listener is held, and close counters (Stop never closes sessions — it only
waits for them — so a session-close counter witnesses that). -/
structure ServerState where
  isRunning : Bool
  hasListener : Bool
  listenerCloseCount : Nat
  sessionCloseCount : Nat
  deriving DecidableEq

/-- Result of a Stop call: nil, or the drain-timeout (context) error. -/
inductive StopResult where
  | ok
  | ctxErr
  deriving DecidableEq

/-- `StandardTCPServer.Stop` (tcp_server.go lines 60-94): under the mutex,
return nil at once when not running; otherwise close the listener (when one
is held), clear the running flag, and wait for the handlers — nil when the
wait finishes before the context deadline (`drainCompletes`), the context
error otherwise. Sessions are never closed by Stop itself. -/
def Stop (s : ServerState) (drainCompletes : Bool) : StopResult × ServerState :=
  if s.isRunning = false then (.ok, s)
  else
    let s1 := if s.hasListener
      then { s with listenerCloseCount := s.listenerCloseCount + 1 }
      else s
    let s2 := { s1 with isRunning := false }
    if drainCompletes then (.ok, s2) else (.ctxErr, s2)

/-! ### The structured logger (pkg/logger/logger.go)

`SimpleLogger` holds a pointer to a Go map of fields; `WithField` allocates a
fresh map, copies the receiver's entries into it, sets the new key and
returns a new logger around the fresh map. The heap of field maps is modelled
explicitly so that "the original instance is not mutated" is expressible. -/

/-- A Go `map[string]string` of accumulated fields, as an association list
whose observable content is given by `mapGet`. -/
abbrev FieldMap := List (String × String)

/-- Map lookup. -/
def mapGet : FieldMap → String → Option String
  | [], _ => none
  | (k1, v1) :: m, k => if k1 = k then some v1 else mapGet m k

/-- Map update: replace any binding of `k` and add `k ↦ v`. -/
def mapPut (m : FieldMap) (k v : String) : FieldMap :=
  (m.filter (fun p => ¬ (p.1 = k))) ++ [(k, v)]

/-- The heap of allocated field maps; an address is an index. -/
structure LoggerHeap where
  maps : List FieldMap
  deriving DecidableEq

/-- A SimpleLogger value: a reference to its field map. -/
structure LoggerRef where
  addr : Nat
  deriving DecidableEq

/-- The field map a logger currently refers to. -/
def fieldsOf (h : LoggerHeap) (l : LoggerRef) : FieldMap :=
  h.maps.getD l.addr []

/-- `SimpleLogger.WithField` (logger.go lines 48-59): allocate a fresh map,
copy the receiver's fields into it, set the new key, and return a new logger
referring to the fresh map; the receiver's map is not written. -/
def WithField (h : LoggerHeap) (l : LoggerRef) (k v : String) :
    LoggerHeap × LoggerRef :=
  (⟨h.maps ++ [mapPut (fieldsOf h l) k v]⟩, ⟨h.maps.length⟩)

/-! ### The standard query logger (tcp_server.go lines 165-188) -/

/-- The observable record LogQuery emits. -/
structure LogEntry where
  conn : String
  query : String
  queryLength : Nat
  deriving DecidableEq

/-- `StandardQueryLogger.LogQuery`: nil (and no log line) on an empty query;
otherwise replace newlines by spaces, trim, truncate past 500 characters with
a "..." suffix, and log it together with the original query's length; always
returns nil. -/
def LogQuery (connectionID query : String) :
    Except String Unit × Option LogEntry :=
  if query = "" then (.ok (), none)
  else
    let cleanQuery := goTrimSpace (goReplaceNl query)
    let cleanQuery2 :=
      if cleanQuery.length > 500
      then ⟨cleanQuery.data.take 500⟩ ++ "..."
      else cleanQuery
    (.ok (), some { conn := connectionID, query := cleanQuery2,
                    queryLength := query.length })

/-! ### Auxiliary definitions for the theorems -/

/-- The placeholder index of a token, when it is one. -/
def phNum? : Tok → Option Nat
  | .ph n => some n
  | _ => none

/-- The placeholder indices of a token list, in order. -/
def phNums (ts : List Tok) : List Nat := ts.filterMap phNum?

/-- A sink whose methods all succeed. -/
def trivialSink : QuerySink :=
  ⟨fun _ _ => .ok (), fun _ _ => .ok (), fun _ _ _ => .ok ()⟩

/-- The claim-side description of the text LogQuery logs: newlines replaced
by spaces, surrounding whitespace trimmed, truncated to the first 500
characters plus "..." when longer than 500. -/
def claimCleanedText (q : String) : String :=
  let c := goTrimSpace (goReplaceNl q)
  if c.length > 500 then ⟨c.data.take 500⟩ ++ "..." else c

/-- Concrete inputs for the C1 witness: two queries identical except for the
literal value. -/
def c1q1 : String := "SELECT * FROM users WHERE id = 1"

def c1q2 : String := "SELECT * FROM users WHERE id = 2"

def c1ts1 : List Tok := (lex c1q1).getD []

def c1ts2 : List Tok := (lex c1q2).getD []

def c1r1 : NormalizedQuery :=
  (Normalize c1q1).toOption.getD { Original := "", Normalized := "", Hash := ⟨""⟩ }

def c1r2 : NormalizedQuery :=
  (Normalize c1q2).toOption.getD { Original := "", Normalized := "", Hash := ⟨""⟩ }

/-- Concrete heap for the C8 witness: one allocated logger map. -/
def c8h0 : LoggerHeap := ⟨[[("a", "b")]]⟩

def c8l0 : LoggerRef := ⟨0⟩

def c8h1 : LoggerHeap := (WithField c8h0 c8l0 "k" "v").1

def c8l1 : LoggerRef := (WithField c8h0 c8l0 "k" "v").2

/-! ### Helper lemmas -/

/-- Putting a key in a field map makes it observable under that key. -/
theorem mapGet_mapPut_same (m : FieldMap) (k v : String) :
    mapGet (mapPut m k v) k = some v := by
  induction m with
  | nil => simp [mapPut, mapGet]
  | cons a m ih =>
    obtain ⟨a1, a2⟩ := a
    by_cases ha : a1 = k
    · simpa [mapPut, List.filter_cons, ha] using ih
    · simpa [mapPut, List.filter_cons, ha, mapGet] using ih

/-- Putting a key in a field map leaves every other key's value unchanged. -/
theorem mapGet_mapPut_other (m : FieldMap) (k k2 v : String) (hne : k2 ≠ k) :
    mapGet (mapPut m k v) k2 = mapGet m k2 := by
  have hkk2 : ¬(k = k2) := fun hh => hne hh.symm
  induction m with
  | nil => simp [mapPut, mapGet, hkk2]
  | cons a m ih =>
    obtain ⟨a1, a2⟩ := a
    by_cases ha : a1 = k
    · have ha2 : ¬(a1 = k2) := ha ▸ hkk2
      have hput : mapPut ((a1, a2) :: m) k v = mapPut m k v := by
        simp [mapPut, List.filter_cons, ha]
      rw [hput, ih, mapGet, if_neg ha2]
    · have hput : mapPut ((a1, a2) :: m) k v = (a1, a2) :: mapPut m k v := by
        simp [mapPut, List.filter_cons, ha]
      rw [hput]
      by_cases hb : a1 = k2
      · rw [mapGet, if_pos hb, mapGet, if_pos hb]
      · rw [mapGet, if_neg hb, mapGet, if_neg hb, ih]

/-- A successful Normalize result is determined by the lexed token list:
the normalized text renumbers the literals from 1, the hash is the digest of
the literal-erased shape. -/
theorem Normalize_ok_parts {q : String} {ts : List Tok} {r : NormalizedQuery}
    (hl : lex q = some ts) (h : Normalize q = .ok r) :
    r = { Original := q, Normalized := render (renumberFrom 1 ts),
          Hash := ⟨render (eraseLits ts)⟩ } := by
  unfold Normalize at h
  by_cases hq : q = ""
  · simp [hq] at h
  · rw [if_neg hq] at h
    by_cases ht : goTrimSpace q = ""
    · simp [ht] at h
    · rw [if_neg ht] at h
      simp only [pgNormalize, pgFingerprint, hl, Option.map_some'] at h
      simpa [NewQueryHash, eq_comm] using h

/-- The placeholder indices produced by renumbering from k are exactly
k, k+1, …, one per literal, provided the input holds no placeholder. -/
theorem phNums_renumberFrom (ts : List Tok) (hph : ∀ n, Tok.ph n ∉ ts) :
    ∀ k, phNums (renumberFrom k ts) = List.range' k (ts.countP Tok.isLit) := by
  induction ts with
  | nil => intro k; simp [renumberFrom, phNums]
  | cons t ts ih =>
    intro k
    have hph2 : ∀ n, Tok.ph n ∉ ts := fun n hn => hph n (List.mem_cons_of_mem _ hn)
    have htph : phNum? t = none := by
      cases t with
      | ph n => exact absurd (List.mem_cons_self _ _) (hph n)
      | word s => rfl
      | num s => rfl
      | strLit s => rfl
      | sym c => rfl
    by_cases hl : t.isLit
    · have hrec := ih hph2 (k + 1)
      simp only [phNums] at hrec
      simp [renumberFrom, hl, phNums, List.filterMap_cons, phNum?,
        List.countP_cons, List.range'_succ, hrec]
    · have hrec := ih hph2 k
      simp only [phNums] at hrec
      simp [renumberFrom, hl, phNums, List.filterMap_cons, htph,
        List.countP_cons, hrec]

/-! ### The claims -/

/-- C5: Normalize of the empty string and of a whitespace-only string both
fail with the EmptyQuery error, and Normalize fails with EmptyQuery exactly
when the trimmed input has zero length. -/
theorem C5_empty_query_error :
    Normalize "" = .error .emptyQuery ∧
    Normalize "   " = .error .emptyQuery ∧
    ∀ q : String, (Normalize q = .error .emptyQuery ↔ goTrimSpace q = "") := by
  refine ⟨rfl, by rfl, fun q => ⟨fun h => ?_, fun ht => ?_⟩⟩
  · by_cases hq : q = ""
    · subst hq; rfl
    · unfold Normalize at h
      rw [if_neg hq] at h
      by_cases ht : goTrimSpace q = ""
      · exact ht
      · rw [if_neg ht] at h
        exfalso
        cases hpn : pgNormalize q <;> rw [hpn] at h
        · simp at h
        · cases hpf : pgFingerprint q <;> rw [hpf] at h <;> simp at h
  · by_cases hq : q = ""
    · subst hq; rfl
    · unfold Normalize
      rw [if_neg hq, if_pos ht]

/-- C5 witness: the theorem at the whitespace-only input "  ". -/
theorem C5_empty_query_error_witness :
    Normalize "  " = .error .emptyQuery :=
  (C5_empty_query_error.2.2 "  ").mpr (by decide)

/-- C7: a decoded PasswordMessage exposes only the credential's length,
never its bytes: the Details map holds exactly password_length, and two
passwords of equal length give identical ParsedMessage output. -/
theorem C7_password_only_length (pw p1 p2 : List Nat)
    (hlen : p1.length = p2.length) :
    parseMessage (.password pw) =
      { msgType := "PasswordMessage", msgQuery := "",
        details := [("password_length", .nat pw.length)] } ∧
    parseMessage (.password p1) = parseMessage (.password p2) := by
  exact ⟨rfl, by simp [parseMessage, hlen]⟩

/-- C7 witness: two different two-byte passwords parse identically. -/
theorem C7_password_only_length_witness :
    parseMessage (.password [1, 2]) =
      { msgType := "PasswordMessage", msgQuery := "",
        details := [("password_length", DVal.nat 2)] } ∧
    parseMessage (.password [1, 2]) = parseMessage (.password [7, 8]) :=
  C7_password_only_length [1, 2] [1, 2] [7, 8] (by decide)

/-- C10: a Query or Parse message whose SQL text is empty is not forwarded:
processMessage makes no call at all (neither the query logger nor the
normalizer) and returns nil. -/
theorem C10_empty_sql_not_forwarded (qs : QuerySink)
    (norm : String → Except NormError NormalizedQuery)
    (connectionID : String) (message : ParsedMessage)
    (htype : message.msgType = "Query" ∨ message.msgType = "Parse")
    (hq : message.msgQuery = "") :
    processMessage qs norm connectionID message = (.ok (), []) := by
  simp [processMessage, htype, hq]

/-- C10 witness: an empty Query message under the trivial sink and the real
normalizer produces no call and the nil result. -/
theorem C10_empty_sql_not_forwarded_witness :
    processMessage trivialSink Normalize "conn_1"
      { msgType := "Query", msgQuery := "", details := [] } = (.ok (), []) :=
  C10_empty_sql_not_forwarded trivialSink Normalize "conn_1"
    { msgType := "Query", msgQuery := "", details := [] } (Or.inl rfl) rfl

/-- C3: a well-framed message with an unknown tag decodes without error to an
Unknown-kind ParsedMessage carrying the raw tag and payload. -/
theorem C3_unknown_tag_ok (tag : Nat) (payload : List Nat)
    (h : tag ∉ knownTags) :
    ReadMessage tag payload =
      .ok { msgType := "Unknown", msgQuery := "",
            details := [("tag", .nat tag), ("message", .bytes payload)] } := by
  simp only [knownTags, List.mem_cons, List.not_mem_nil, or_false, not_or] at h
  obtain ⟨h81, h80, h66, h69, h68, h67, h83, h88, h72, h112⟩ := h
  simp [ReadMessage, decodeBody, h81, h80, h66, h69, h68, h67, h83, h88,
    h72, h112, parseMessage, Except.map]

/-- C3 witness: tag 90 with a three-byte payload decodes to the Unknown
message without error. -/
theorem C3_unknown_tag_ok_witness :
    ReadMessage 90 [1, 2, 3] =
      .ok { msgType := "Unknown", msgQuery := "",
            details := [("tag", DVal.nat 90), ("message", DVal.bytes [1, 2, 3])] } :=
  C3_unknown_tag_ok 90 [1, 2, 3] (by decide)

/-- C4: per-message processing never ends the read loop: the way a session
ends is a function of the transport events alone (identical for every sink
and normalizer, however they fail), and a decoded message is processed and
the loop continues to the rest of the stream. -/
theorem C4_processing_never_ends_session (qs : QuerySink)
    (norm : String → Except NormError NormalizedQuery)
    (connectionID : String) :
    (∀ evs, (handleLoop qs norm connectionID evs).1 = sessionEndOf evs) ∧
    (∀ m rest, handleLoop qs norm connectionID (ReadEvent.msg m :: rest) =
      ((handleLoop qs norm connectionID rest).1,
       (processMessage qs norm connectionID m).2
         ++ (handleLoop qs norm connectionID rest).2)) := by
  constructor
  · intro evs
    induction evs with
    | nil => rfl
    | cons e rest ih => cases e <;> simp [handleLoop, sessionEndOf, ih]
  · intro m rest; rfl

/-- C1: two queries that lex successfully and are identical except for
literal values at corresponding positions (equal literal-erased token
shapes), both normalized successfully, get equal fingerprint hashes. -/
theorem C1_fingerprint_shape_invariant (q1 q2 : String) (ts1 ts2 : List Tok)
    (r1 r2 : NormalizedQuery)
    (h1 : lex q1 = some ts1) (h2 : lex q2 = some ts2)
    (hshape : eraseLits ts1 = eraseLits ts2)
    (hn1 : Normalize q1 = .ok r1) (hn2 : Normalize q2 = .ok r2) :
    r1.Hash = r2.Hash := by
  rw [Normalize_ok_parts h1 hn1, Normalize_ok_parts h2 hn2]
  simp [hshape]

/-- C1 witness: the queries "… id = 1" and "… id = 2" share a hash. -/
theorem C1_fingerprint_shape_invariant_witness : c1r1.Hash = c1r2.Hash :=
  C1_fingerprint_shape_invariant c1q1 c1q2 c1ts1 c1ts2 c1r1 c1r2
    rfl rfl rfl rfl rfl

/-- C2: the normalized text replaces each literal with a placeholder whose
number starts at 1 and increments per literal in left-to-right order (the
placeholder indices of the renumbered token list are 1, 2, …), and the two
cited examples normalize exactly as claimed. -/
theorem C2_normalized_text :
    (Normalize "SELECT * FROM users WHERE id = 123").toOption.map
        (fun r => r.Normalized) = some "SELECT * FROM users WHERE id = $1" ∧
    (Normalize "SELECT * FROM items WHERE category IN ('a','b','c')").toOption.map
        (fun r => r.Normalized)
      = some "SELECT * FROM items WHERE category IN ($1, $2, $3)" ∧
    ∀ ts : List Tok, (∀ n, Tok.ph n ∉ ts) →
      phNums (renumberFrom 1 ts) = List.range' 1 (ts.countP Tok.isLit) :=
  ⟨by decide, by decide, fun ts hph => phNums_renumberFrom ts hph 1⟩

/-- C6: Stop on an already-stopped server returns success at once without
touching listener or sessions; after any Stop, a second Stop returns success
and changes nothing (so nothing is closed twice); and Stop itself never
closes a session. -/
theorem C6_stop_idempotent (s : ServerState) (d d2 : Bool) :
    (s.isRunning = false → Stop s d = (.ok, s)) ∧
    (Stop s true).1 = .ok ∧
    Stop (Stop s d).2 d2 = (.ok, (Stop s d).2) ∧
    ((Stop s d).2).sessionCloseCount = s.sessionCloseCount := by
  cases hr : s.isRunning <;> cases hl : s.hasListener <;> cases d <;>
    cases d2 <;> simp [Stop, hr, hl]

/-- C8: WithField allocates a fresh field map holding the old fields plus the
new binding; the original logger's map is untouched and the new logger is a
different reference. -/
theorem C8_withfield_copy_on_write (h : LoggerHeap) (l : LoggerRef)
    (k v : String) (hvalid : l.addr < h.maps.length) :
    mapGet (fieldsOf (WithField h l k v).1 (WithField h l k v).2) k = some v ∧
    (∀ k2, k2 ≠ k →
      mapGet (fieldsOf (WithField h l k v).1 (WithField h l k v).2) k2
        = mapGet (fieldsOf h l) k2) ∧
    fieldsOf (WithField h l k v).1 l = fieldsOf h l ∧
    (WithField h l k v).2.addr ≠ l.addr := by
  have hnew : fieldsOf (WithField h l k v).1 (WithField h l k v).2
      = mapPut (fieldsOf h l) k v := by
    show (h.maps ++ [mapPut (fieldsOf h l) k v]).getD h.maps.length [] = _
    rw [List.getD_append_right _ _ _ _ (le_refl _)]
    simp
  have hold : fieldsOf (WithField h l k v).1 l = fieldsOf h l :=
    List.getD_append _ _ _ _ hvalid
  refine ⟨?_, ?_, hold, ?_⟩
  · rw [hnew]; exact mapGet_mapPut_same _ _ _
  · intro k2 hk2; rw [hnew]; exact mapGet_mapPut_other _ _ _ _ hk2
  · show h.maps.length ≠ l.addr
    exact (Nat.ne_of_lt hvalid).symm

/-- C8 witness: deriving a logger with a new field in a one-map heap leaves
the base map unchanged and the derived map independent. -/
theorem C8_withfield_copy_on_write_witness :
    mapGet (fieldsOf c8h1 c8l1) "k" = some "v" ∧
    mapGet (fieldsOf c8h1 c8l1) "a" = mapGet (fieldsOf c8h0 c8l0) "a" ∧
    fieldsOf c8h1 c8l0 = fieldsOf c8h0 c8l0 ∧
    c8l1.addr ≠ c8l0.addr :=
  have h := C8_withfield_copy_on_write c8h0 c8l0 "k" "v" (by decide)
  ⟨h.1, h.2.1 "a" (by decide), h.2.2.1, h.2.2.2⟩

/-- C9: for every non-empty query, LogQuery returns nil and logs the query
with newlines replaced by spaces, surrounding whitespace trimmed, truncated
to 500 characters plus "..." when longer, with query_length the original
length. -/
theorem C9_logquery_behaviour (connectionID q : String) (h : q ≠ "") :
    (LogQuery connectionID q).1 = .ok () ∧
    (LogQuery connectionID q).2
      = some { conn := connectionID,
               query := claimCleanedText q, queryLength := q.length } := by
  simp [LogQuery, h, claimCleanedText]

/-- C9 witness: a query with a newline and trailing blanks is logged cleaned,
with the original length reported. -/
theorem C9_logquery_behaviour_witness :
    (LogQuery "conn_1" "SELECT 1\nFROM t  ").2
      = some { conn := "conn_1",
               query := "SELECT 1 FROM t", queryLength := 17 } := by
  rw [(C9_logquery_behaviour "conn_1" "SELECT 1\nFROM t  " (by decide)).2]
  rfl

end PgQuota
